import Mathlib

/-!
Shallow embedding of the Verto leaderboard service.

The repository contains four overlapping rewrites of the same service:
- namespace RA: the first half of server.js (Neon client, players table keyed
  by device_id, three-level ORDER BY, rank computed by scanning the ordered
  rows, app-level username conflict check plus a unique index on
  LOWER(username));
- namespace P0: src/unnamed/part_000 (players table with NOT NULL username
  defaulting to Player, three-level ORDER BY, ROW_NUMBER ranking, app-level
  conflict check, no unique index);
- namespace P1: src/unnamed/part_001 (players table without created_at,
  two-level ORDER BY on rating and updated_at, RANK ranking, no username
  uniqueness check at all);
- namespace RB: the second half of server.js (users and ratings tables,
  getOrCreateUser retry loop, top and around endpoints ordered by rating,
  created_at, id).

SQL queries are embedded as deterministic list computations: ORDER BY is a
stable insertion sort on the keys of the query, ROW_NUMBER is positional
enumeration from 1, RANK counts rows with a strictly smaller key, and
timestamps are explicit natural number parameters.
-/

namespace Verto

/-- Case folding used by SQL LOWER in the username comparisons, written over
the character list so that it evaluates by kernel reduction. -/
def lower (s : String) : String := ⟨s.data.map Char.toLower⟩

/-- Whitespace recognized by the trim calls on usernames. -/
def isWsChar (c : Char) : Bool := c == ' ' || c == '\t' || c == '\n' || c == '\r'

/-- The trim applied to incoming usernames, written over the character list
so that it evaluates by kernel reduction. -/
def trimS (s : String) : String :=
  ⟨((s.data.dropWhile isWsChar).reverse.dropWhile isWsChar).reverse⟩

/-- Username format rule shared by server.js OK_NAME and part_000 NAME_RE:
3 to 16 characters, each a latin letter, digit, underscore, dot or space. -/
def okName (s : String) : Bool :=
  decide (3 ≤ s.length) && decide (s.length ≤ 16) &&
    s.data.all (fun c => c.isAlphanum || c == '_' || c == '.' || c == ' ')

/-- Mode defaulting used by every /api read endpoint: the query value is
classic unless it is exactly the string infinity. -/
def modeOf (q : Option String) : String :=
  if q = some "infinity" then "infinity" else "classic"

/-- Ordered insertion for the stable sort that embeds SQL ORDER BY. -/
def ordInsert (le : α → α → Bool) (a : α) : List α → List α
  | [] => [a]
  | b :: l => if le a b then a :: b :: l else b :: ordInsert le a l

/-- Stable insertion sort embedding SQL ORDER BY. -/
def isort (le : α → α → Bool) : List α → List α
  | [] => []
  | a :: l => ordInsert le a (isort le l)

theorem perm_ordInsert (le : α → α → Bool) (a : α) (l : List α) :
    List.Perm (ordInsert le a l) (a :: l) := by
  induction l with
  | nil => simp [ordInsert]
  | cons b l ih =>
    simp only [ordInsert]
    by_cases h : le a b = true
    · simp [h]
    · simp only [h]
      exact (List.Perm.cons b ih).trans (List.Perm.swap a b l)

theorem perm_isort (le : α → α → Bool) (l : List α) :
    List.Perm (isort le l) l := by
  induction l with
  | nil => simp [isort]
  | cons a l ih =>
    exact (perm_ordInsert le a (isort le l)).trans (List.Perm.cons a ih)

theorem mem_isort {le : α → α → Bool} {l : List α} {x : α} :
    x ∈ isort le l ↔ x ∈ l :=
  (perm_isort le l).mem_iff

/-- Positional enumeration starting at k, embedding ROW_NUMBER. -/
def enumF (k : Nat) : List α → List (Nat × α)
  | [] => []
  | a :: l => (k, a) :: enumF (k + 1) l

theorem mem_enumF {l : List α} : ∀ {k : Nat} {x : Nat × α},
    x ∈ enumF k l → k ≤ x.1 ∧ x.2 ∈ l := by
  induction l with
  | nil => intro k x h; simp [enumF] at h
  | cons a l ih =>
    intro k x h
    simp only [enumF, List.mem_cons] at h
    rcases h with h | h
    · subst h; exact ⟨Nat.le_refl _, List.mem_cons_self _ _⟩
    · obtain ⟨h1, h2⟩ := ih h
      exact ⟨Nat.le_of_succ_le h1, List.mem_cons_of_mem _ h2⟩

/-- A successful find? returns a member that satisfies the predicate. -/
theorem findq_some {p : α → Bool} : ∀ {l : List α} {x : α},
    l.find? p = some x → x ∈ l ∧ p x = true := by
  intro l
  induction l with
  | nil => intro x h; simp [List.find?] at h
  | cons a l ih =>
    intro x h
    by_cases ha : p a = true
    · rw [List.find?_cons_of_pos _ ha] at h
      cases h
      exact ⟨List.mem_cons_self _ _, ha⟩
    · rw [List.find?_cons_of_neg _ (by simpa using ha)] at h
      obtain ⟨h1, h2⟩ := ih h
      exact ⟨List.mem_cons_of_mem _ h1, h2⟩

/-- find? succeeds when some member satisfies the predicate. -/
theorem findq_isSome {p : α → Bool} : ∀ {l : List α},
    (∃ x ∈ l, p x = true) → (l.find? p).isSome = true := by
  intro l
  induction l with
  | nil => rintro ⟨x, hx, _⟩; simp at hx
  | cons a l ih =>
    rintro ⟨x, hx, hpx⟩
    by_cases ha : p a = true
    · rw [List.find?_cons_of_pos _ ha]; rfl
    · rw [List.find?_cons_of_neg _ (by simpa using ha)]
      rcases List.mem_cons.mp hx with h | h
      · subst h; exact absurd hpx ha
      · exact ih ⟨x, h, hpx⟩

/-- Finding a row in the enumerated list localizes it at its position. -/
theorem findq_enumF_get? {p : Nat × α → Bool} : ∀ (l : List α) (k : Nat)
    (r : Nat) (a : α), (enumF k l).find? p = some (r, a) →
    k ≤ r ∧ l.get? (r - k) = some a := by
  intro l
  induction l with
  | nil => intro k r a h; simp [enumF, List.find?] at h
  | cons b l ih =>
    intro k r a h
    by_cases hb : p (k, b) = true
    · rw [enumF, List.find?_cons_of_pos _ hb] at h
      cases h
      simp
    · rw [enumF, List.find?_cons_of_neg _ (by simpa using hb)] at h
      obtain ⟨h1, h2⟩ := ih (k + 1) r a h
      refine ⟨Nat.le_of_succ_le h1, ?_⟩
      have hr : r - k = (r - (k + 1)) + 1 := by omega
      rw [hr]
      simpa using h2

/-- Filtering an enumeration by a rank interval yields the contiguous slice
of the enumeration given by drop and take, with natural subtraction clipping
the window at the low end. -/
theorem filter_enumF_window : ∀ (l : List α) (k lo hi : Nat),
    (enumF k l).filter (fun x => decide (lo ≤ x.1) && decide (x.1 ≤ hi)) =
      ((enumF k l).drop (lo - k)).take (hi + 1 - max lo k) := by
  intro l
  induction l with
  | nil => intro k lo hi; simp [enumF]
  | cons a l ih =>
    intro k lo hi
    simp only [enumF, List.filter_cons]
    by_cases hlo : lo ≤ k
    · by_cases hhi : k ≤ hi
      · have hp : (decide (lo ≤ (k, a).1) && decide ((k, a).1 ≤ hi)) = true := by
          simp [hlo, hhi]
        rw [hp]
        have hd : lo - k = 0 := Nat.sub_eq_zero_of_le hlo
        have hm : max lo k = k := Nat.max_eq_right hlo
        have ht : hi + 1 - k = (hi - k) + 1 := by omega
        rw [hd, hm, ht, List.drop_zero, List.take_succ_cons]
        rw [ih (k + 1) lo hi]
        have hd2 : lo - (k + 1) = 0 := by omega
        have hm2 : max lo (k + 1) = k + 1 := by omega
        rw [hd2, hm2, List.drop_zero]
        have ht2 : hi + 1 - (k + 1) = hi - k := by omega
        rw [ht2]
        simp
      · have hp : (decide (lo ≤ (k, a).1) && decide ((k, a).1 ≤ hi)) = false := by
          simp; omega
        rw [hp]
        have ht : hi + 1 - max lo k = 0 := by omega
        rw [ht, List.take_zero]
        rw [ih (k + 1) lo hi]
        have ht2 : hi + 1 - max lo (k + 1) = 0 := by omega
        rw [ht2, List.take_zero]
        simp
    · have hp : (decide (lo ≤ (k, a).1) && decide ((k, a).1 ≤ hi)) = false := by
        simp; omega
      rw [hp]
      have hd : lo - k = (lo - (k + 1)) + 1 := by omega
      rw [hd, List.drop_succ_cons]
      rw [ih (k + 1) lo hi]
      have hm : max lo k = lo := by omega
      have hm2 : max lo (k + 1) = lo := by omega
      rw [hm, hm2]
      simp

/-- The position scan of rankOfDeviceId in server.js. -/
def findPos (d : String) : List String → Nat → Option Nat
  | [], _ => none
  | x :: xs, pos => if x = d then some pos else findPos d xs (pos + 1)

theorem findPos_some {d : String} : ∀ {xs : List String} {k r : Nat},
    findPos d xs k = some r → k ≤ r ∧ xs.get? (r - k) = some d := by
  intro xs
  induction xs with
  | nil => intro k r h; simp [findPos] at h
  | cons x xs ih =>
    intro k r h
    by_cases hx : x = d
    · rw [findPos, if_pos hx] at h
      cases h
      simp [hx]
    · rw [findPos, if_neg hx] at h
      obtain ⟨h1, h2⟩ := ih h
      refine ⟨Nat.le_of_succ_le h1, ?_⟩
      have hr : r - k = (r - (k + 1)) + 1 := by omega
      rw [hr]
      simpa using h2

theorem findPos_isSome {d : String} : ∀ {xs : List String} {k : Nat},
    d ∈ xs → (findPos d xs k).isSome = true := by
  intro xs
  induction xs with
  | nil => intro k h; simp at h
  | cons x xs ih =>
    intro k h
    by_cases hx : x = d
    · rw [findPos, if_pos hx]; rfl
    · rw [findPos, if_neg hx]
      rcases List.mem_cons.mp h with h | h
      · exact absurd h.symm hx
      · exact ih h

namespace RA

/-- One row of the players table of the first rewrite in server.js:
device_id TEXT PRIMARY KEY, username TEXT UNIQUE (nullable), integer ratings
and achievements defaulting to 0, created_at and updated_at timestamps. -/
structure Player where
  deviceId : String
  username : Option String
  ratingClassic : Int
  ratingInfinity : Int
  achievementsCount : Int
  createdAt : Nat
  updatedAt : Nat
deriving DecidableEq

/-- The rating column selected by the requested mode. -/
def ratingFor (mode : String) (p : Player) : Int :=
  if mode = "infinity" then p.ratingInfinity else p.ratingClassic

/-- The comparison of orderByForMode: rating for the mode descending, then
achievements_count descending, then created_at ascending. -/
def keyLE (mode : String) (p q : Player) : Bool :=
  decide (ratingFor mode q < ratingFor mode p ∨
    (ratingFor mode p = ratingFor mode q ∧
      (q.achievementsCount < p.achievementsCount ∨
        (p.achievementsCount = q.achievementsCount ∧ p.createdAt ≤ q.createdAt))))

/-- The full ordered listing of the players table under orderByForMode. -/
def fullOrder (st : List Player) (mode : String) : List Player :=
  isort (keyLE mode) st

/-- rankOfDeviceId: run the ordered query projected to device_id and scan for
the position of the device, starting the counter at 1. -/
def rankOfDeviceId (st : List Player) (d mode : String) : Option Nat :=
  findPos d ((fullOrder st mode).map Player.deviceId) 1

/-- The API shape produced by mapRowToApiPlayer. -/
structure ApiPlayer where
  id : String
  username : String
  ratingClassic : Int
  ratingInfinity : Int
  achievementsCount : Int
  updatedAt : Nat
deriving DecidableEq

/-- mapRowToApiPlayer: a null username is presented as Player. -/
def mapRowToApiPlayer (p : Player) : ApiPlayer :=
  ⟨p.deviceId, p.username.getD "Player", p.ratingClassic, p.ratingInfinity,
    p.achievementsCount, p.updatedAt⟩

/-- GET /api/leaderboard: the full ordered listing for the defaulted mode. -/
def leaderboard (st : List Player) (modeQ : Option String) : List ApiPlayer :=
  (fullOrder st (modeOf modeQ)).map mapRowToApiPlayer

/-- GET /api/top: the ordered listing cut to the clamped limit. -/
def top (st : List Player) (modeQ : Option String) (limit : Nat) : List ApiPlayer :=
  ((fullOrder st (modeOf modeQ)).take (max 1 (min limit 100000))).map mapRowToApiPlayer

/-- Response of GET /api/check-username. -/
inductive CheckResp
  | ok
  | badFormat
  | taken
deriving DecidableEq

/-- GET /api/check-username: format first, then a case-insensitive existence
check over the non-null stored usernames, comparing with the trimmed query. -/
def checkUsername (st : List Player) (nameQ : Option String) : CheckResp :=
  let username := trimS (nameQ.getD "")
  if !okName username then .badFormat
  else if st.any (fun p => match p.username with
      | some u => lower u == lower username
      | none => false) then .taken
  else .ok

/-- Response of GET /api/me. -/
structure MeResp where
  me : Option ApiPlayer
  rank : Option Nat
deriving DecidableEq

/-- GET /api/me: point lookup by device_id, and the rank scan only when the
player exists. -/
def me (st : List Player) (d : String) (modeQ : Option String) : MeResp :=
  match st.find? (fun p => p.deviceId == d) with
  | none => ⟨none, none⟩
  | some p => ⟨some (mapRowToApiPlayer p), rankOfDeviceId st d (modeOf modeQ)⟩

/-- Body of POST /api/upsert; absent fields are none. -/
structure UpsertBody where
  username : Option String
  ratingClassic : Option Int
  ratingInfinity : Option Int
  achievementsCount : Option Int
deriving DecidableEq

/-- Error responses of POST /api/upsert. 400 bad_username_format, 409
username_taken, and 500 internal for a database error such as a violation of
the unique index on LOWER(username). -/
inductive UpsertErr
  | badUsernameFormat
  | usernameTaken
  | internalError
deriving DecidableEq

/-- The VALUES coercion of the upsert: Number.isFinite(x) ? x : 0, so an
omitted numeric field is inserted as 0, never as NULL. -/
def numOrZero (x : Option Int) : Int := x.getD 0

/-- The column assignments of the DO UPDATE arm of the upsert applied to one
row: each column is COALESCE(EXCLUDED.column, players.column); the numeric
EXCLUDED values are never null, so they always overwrite, while a null
EXCLUDED username preserves the stored one; updated_at is refreshed and
created_at kept. -/
def updRow (uname : Option String) (rc ri ac : Int) (now : Nat) (p : Player) : Player :=
  { p with
    username := (match uname with | some u => some u | none => p.username),
    ratingClassic := rc, ratingInfinity := ri, achievementsCount := ac,
    updatedAt := now }

def applyWrite (st : List Player) (d : String) (uname : Option String)
    (rc ri ac : Int) (now : Nat) : List Player × Player :=
  match st.find? (fun p => p.deviceId == d) with
  | some p0 =>
    (st.map (fun p => if p.deviceId == d then updRow uname rc ri ac now p else p),
      updRow uname rc ri ac now p0)
  | none =>
    let row : Player := ⟨d, uname, rc, ri, ac, now, now⟩
    (st ++ [row], row)

/-- True when some row other than the one of device d holds a username that
is case-insensitively equal to w. -/
def clashes (st : List Player) (d w : String) : Bool :=
  st.any (fun p => (!(p.deviceId == d)) && (match p.username with
    | some v => lower v == lower w
    | none => false))

/-- POST /api/upsert. When a username is supplied, its trimmed form is
validated and checked for a case-insensitive conflict against other devices;
the write then stores the raw, untrimmed username. The unique index on
LOWER(username) makes the write itself fail with a generic internal error if
the raw value still collides with another row. -/
def upsert (st : List Player) (d : String) (b : UpsertBody) (now : Nat) :
    Except UpsertErr (List Player × Player) :=
  match b.username with
  | some u0 =>
    let u := trimS u0
    if !okName u then .error .badUsernameFormat
    else if clashes st d u then .error .usernameTaken
    else if clashes st d u0 then .error .internalError
    else .ok (applyWrite st d (some u0) (numOrZero b.ratingClassic)
      (numOrZero b.ratingInfinity) (numOrZero b.achievementsCount) now)
  | none =>
    .ok (applyWrite st d none (numOrZero b.ratingClassic)
      (numOrZero b.ratingInfinity) (numOrZero b.achievementsCount) now)

end RA

namespace P0

/-- One row of the players table of part_000: id TEXT PRIMARY KEY, username
TEXT NOT NULL DEFAULT Player, ratings defaulting to 1000, achievements to 0,
created_at and updated_at timestamps. No unique index exists on usernames. -/
structure Player where
  id : String
  username : String
  ratingClassic : Int
  ratingInfinity : Int
  achievementsCount : Int
  createdAt : Nat
  updatedAt : Nat
deriving DecidableEq

/-- The rating column selected by the CASE WHEN mode expression. -/
def ratingFor (mode : String) (p : Player) : Int :=
  if mode = "infinity" then p.ratingInfinity else p.ratingClassic

/-- ORDER BY rating for the mode descending, achievements_count descending,
created_at ascending, shared by leaderboard, top and me of part_000. -/
def keyLE (mode : String) (p q : Player) : Bool :=
  decide (ratingFor mode q < ratingFor mode p ∨
    (ratingFor mode p = ratingFor mode q ∧
      (q.achievementsCount < p.achievementsCount ∨
        (p.achievementsCount = q.achievementsCount ∧ p.createdAt ≤ q.createdAt))))

/-- The full ordered listing of part_000. -/
def fullOrder (st : List Player) (mode : String) : List Player :=
  isort (keyLE mode) st

/-- The ROW_NUMBER ranked listing: each row paired with its 1-based rank. -/
def ranked (st : List Player) (mode : String) : List (Nat × Player) :=
  enumF 1 (fullOrder st mode)

/-- GET /api/leaderboard and /api/top of part_000 both return the whole
ranked listing for the defaulted mode. -/
def leaderboard (st : List Player) (modeQ : Option String) : List (Nat × Player) :=
  ranked st (modeOf modeQ)

/-- Response of GET /api/me of part_000. -/
structure MeResp where
  me : Option Player
  rank : Option Nat
deriving DecidableEq

/-- GET /api/me of part_000: select the row of the device from the ranked
common table expression and report its ROW_NUMBER as the rank. -/
def me (st : List Player) (d : String) (modeQ : Option String) : MeResp :=
  match (ranked st (modeOf modeQ)).find? (fun x => x.2.id == d) with
  | none => ⟨none, none⟩
  | some x => ⟨some x.2, some x.1⟩

/-- Response of GET /api/check-username of part_000: an ok flag, and a reason
that is present only in the bad format branch. -/
structure CheckResp where
  ok : Bool
  reason : Option String
deriving DecidableEq

/-- GET /api/check-username of part_000: format first, then ok is the absence
of a case-insensitive match; a taken name yields ok false with no reason. -/
def checkUsername (st : List Player) (nameQ : Option String) : CheckResp :=
  let name := trimS (nameQ.getD "")
  if !okName name then ⟨false, some "bad_format"⟩
  else ⟨st.all (fun p => !(lower p.username == lower name)), none⟩

/-- Body of POST /api/upsert of part_000. -/
structure UpsertBody where
  username : Option String
  ratingClassic : Option Int
  ratingInfinity : Option Int
  achievementsCount : Option Int
deriving DecidableEq

/-- Error responses of POST /api/upsert of part_000. -/
inductive UpsertErr
  | badFormat
  | usernameTaken
deriving DecidableEq

/-- The write of part_000: VALUES coalesces an omitted username to Player,
omitted ratings to 1000 and omitted achievements to 0, so the EXCLUDED values
are never null and the ON CONFLICT DO UPDATE coalesces always overwrite. -/
def applyWrite (st : List Player) (d : String) (uname : Option String)
    (rc ri ac : Option Int) (now : Nat) : List Player × Player :=
  let exU := uname.getD "Player"
  let exRC := rc.getD 1000
  let exRI := ri.getD 1000
  let exAC := ac.getD 0
  match st.find? (fun p => p.id == d) with
  | some p0 =>
    let upd := fun (p : Player) =>
      { p with
        username := exU, ratingClassic := exRC, ratingInfinity := exRI,
        achievementsCount := exAC, updatedAt := now }
    (st.map (fun p => if p.id == d then upd p else p), upd p0)
  | none =>
    let row : Player := ⟨d, exU, exRC, exRI, exAC, now, now⟩
    (st ++ [row], row)

/-- POST /api/upsert of part_000: a supplied username is trimmed, validated
and checked app-side for a case-insensitive clash with another id; there is
no database uniqueness constraint behind the check. -/
def upsert (st : List Player) (d : String) (b : UpsertBody) (now : Nat) :
    Except UpsertErr (List Player × Player) :=
  match b.username.map trimS with
  | some u =>
    if !okName u then .error .badFormat
    else if st.any (fun p => (!(p.id == d)) && (lower p.username == lower u)) then
      .error .usernameTaken
    else .ok (applyWrite st d (some u) b.ratingClassic b.ratingInfinity
      b.achievementsCount now)
  | none =>
    .ok (applyWrite st d none b.ratingClassic b.ratingInfinity
      b.achievementsCount now)

end P0

namespace P1

/-- One row of the players table of part_001: id TEXT PRIMARY KEY, username
NOT NULL DEFAULT Player, ratings defaulting to 1000, achievements to 0 and
updated_at; the schema has no created_at column. -/
structure Player where
  id : String
  username : String
  ratingClassic : Int
  ratingInfinity : Int
  achievementsCount : Int
  updatedAt : Nat
deriving DecidableEq

/-- The rating column selected by the mode. -/
def ratingFor (mode : String) (p : Player) : Int :=
  if mode = "infinity" then p.ratingInfinity else p.ratingClassic

/-- ORDER BY rating descending, updated_at ascending, used by both /api/top
queries of part_001; achievements never participate. -/
def keyLE (mode : String) (p q : Player) : Bool :=
  decide (ratingFor mode q < ratingFor mode p ∨
    (ratingFor mode p = ratingFor mode q ∧ p.updatedAt ≤ q.updatedAt))

/-- GET /api/top of part_001: ordered listing cut to the clamped limit. -/
def top (st : List Player) (modeQ : Option String) (limit : Nat) : List Player :=
  (isort (keyLE (modeOf modeQ)) st).take (max 1 (min limit 50))

/-- Strictly better under the part_001 order: higher rating, or equal rating
and strictly earlier updated_at. -/
def beats (mode : String) (q p : Player) : Bool :=
  decide (ratingFor mode p < ratingFor mode q ∨
    (ratingFor mode q = ratingFor mode p ∧ q.updatedAt < p.updatedAt))

/-- The RANK() window value of part_001: one plus the number of rows whose
key is strictly better; rows tying on rating and updated_at share a rank. -/
def rank (st : List Player) (mode : String) (p : Player) : Nat :=
  1 + st.countP (fun q => beats mode q p)

/-- Response of GET /api/me of part_001. -/
structure MeResp where
  me : Option Player
  rank : Option Nat
deriving DecidableEq

/-- GET /api/me of part_001: find the row of the device among all ranked
rows and report its RANK() value. -/
def me (st : List Player) (d : String) (modeQ : Option String) : MeResp :=
  match st.find? (fun p => p.id == d) with
  | none => ⟨none, none⟩
  | some p => ⟨some p, some (rank st (modeOf modeQ) p)⟩

/-- Body of POST /api/upsert of part_001. -/
structure UpsertBody where
  username : Option String
  ratingClassic : Option Int
  ratingInfinity : Option Int
  achievementsCount : Option Int
deriving DecidableEq

/-- POST /api/upsert of part_001: no username validation and no uniqueness
check of any kind; VALUES coalesces omissions to the defaults, so the ON
CONFLICT DO UPDATE coalesces always overwrite with the EXCLUDED values. -/
def upsert (st : List Player) (d : String) (b : UpsertBody) (now : Nat) :
    List Player × Player :=
  let exU := b.username.getD "Player"
  let exRC := b.ratingClassic.getD 1000
  let exRI := b.ratingInfinity.getD 1000
  let exAC := b.achievementsCount.getD 0
  match st.find? (fun p => p.id == d) with
  | some p0 =>
    let upd := fun (p : Player) =>
      { p with
        username := exU, ratingClassic := exRC, ratingInfinity := exRI,
        achievementsCount := exAC, updatedAt := now }
    (st.map (fun p => if p.id == d then upd p else p), upd p0)
  | none =>
    let row : Player := ⟨d, exU, exRC, exRI, exAC, now⟩
    (st ++ [row], row)

end P1

namespace RB

/-- One row of the users table of the second rewrite in server.js. -/
structure UserRow where
  id : Nat
  deviceId : String
  username : String
  createdAt : Nat
deriving DecidableEq

/-- One row of the ratings table, keyed by (user_id, mode). -/
structure RatingRow where
  userId : Nat
  mode : String
  rating : Int
  achievementsTotal : Int
deriving DecidableEq

/-- The store of the second rewrite. -/
structure State where
  users : List UserRow
  ratings : List RatingRow
deriving DecidableEq

/-- FROM ratings r JOIN users u ON u.id = r.user_id WHERE r.mode = m. -/
def joinRows (st : State) (m : String) : List (UserRow × RatingRow) :=
  st.ratings.filterMap (fun r =>
    if r.mode == m then
      (st.users.find? (fun u => u.id == r.userId)).map (fun u => (u, r))
    else none)

/-- ORDER BY r.rating DESC, u.created_at ASC, u.id ASC of the ranked common
table expression shared by /v1/leaderboard/top and /v1/leaderboard/around. -/
def rowLE (a b : UserRow × RatingRow) : Bool :=
  decide (b.2.rating < a.2.rating ∨
    (a.2.rating = b.2.rating ∧
      (a.1.createdAt < b.1.createdAt ∨
        (a.1.createdAt = b.1.createdAt ∧ a.1.id ≤ b.1.id))))

/-- The full ordered listing of joined rows for a mode. -/
def fullOrder (st : State) (m : String) : List (UserRow × RatingRow) :=
  isort rowLE (joinRows st m)

/-- The ranked common table expression: rows paired with their ROW_NUMBER. -/
def rankedRows (st : State) (m : String) : List (Nat × (UserRow × RatingRow)) :=
  enumF 1 (fullOrder st m)

/-- The me subquery of /v1/leaderboard/around: the rank of the user. -/
def rankOfUser (st : State) (m : String) (uid : Nat) : Option Nat :=
  ((rankedRows st m).find? (fun x => x.2.1.id == uid)).map (fun x => x.1)

/-- Error responses of GET /v1/leaderboard/around. -/
inductive AroundErr
  | badMode
  | userNotFound
deriving DecidableEq

/-- GET /v1/leaderboard/around: mode validation, user lookup by device_id
(404 when absent), then the rows of the ranked listing whose rank lies
between the rank of the user minus and plus the capped radius. When the user
has no rating row for the mode, the me subquery is empty and the SQL BETWEEN
against NULL selects nothing. -/
def around (st : State) (modeQ : Option String) (d : String) (radius : Nat) :
    Except AroundErr (List (Nat × (UserRow × RatingRow))) :=
  let m := modeQ.getD "classic"
  let rad := min radius 25
  if !(m == "classic" || m == "infinity") then .error .badMode
  else match st.users.find? (fun u => u.deviceId == d) with
  | none => .error .userNotFound
  | some u =>
    match rankOfUser st m u.id with
    | none => .ok []
    | some mr =>
      .ok ((rankedRows st m).filter (fun x =>
        decide ((mr : Int) - rad ≤ (x.1 : Int)) &&
          decide ((x.1 : Int) ≤ (mr : Int) + rad)))

/-- Outcome of one INSERT attempt of getOrCreateUser: success, a uniqueness
violation with code 23505, or any other database error. -/
inductive InsOutcome
  | ok (id : Nat) (username : String)
  | uniqueViolation
  | dbFailure (msg : String)
deriving DecidableEq

/-- Errors thrown out of getOrCreateUser. -/
inductive UserErr
  | couldNotAssignUsername
  | storeFailure (msg : String)
deriving DecidableEq

/-- The retry loop of getOrCreateUser: at attempt i consult the outcome; on
a 23505 uniqueness conflict continue with the next candidate, on any other
error rethrow it unchanged; when the fuel of five attempts is exhausted,
throw could_not_assign_username. -/
def attemptLoop (outs : Nat → InsOutcome) (i : Nat) : Nat → Except UserErr (Nat × String)
  | 0 => .error .couldNotAssignUsername
  | fuel + 1 =>
    match outs i with
    | .ok id u => .ok (id, u)
    | .uniqueViolation => attemptLoop outs (i + 1) fuel
    | .dbFailure m => .error (.storeFailure m)

/-- getOrCreateUser: return the existing user of the device when present,
otherwise run up to five insert attempts. -/
def getOrCreateUser (existing : Option (Nat × String)) (outs : Nat → InsOutcome) :
    Except UserErr (Nat × String) :=
  match existing with
  | some u => .ok u
  | none => attemptLoop outs 0 5

/-- Response of POST /v1/user/upsert. -/
inductive UpsertResp
  | ok (userId : Nat) (username : String)
  | serverFailure (msg : String)
deriving DecidableEq

/-- POST /v1/user/upsert: every error thrown by getOrCreateUser, including
could_not_assign_username, is caught by the catch-all and mapped to the
generic 500 server_error response. -/
def userUpsertRoute (existing : Option (Nat × String)) (outs : Nat → InsOutcome) :
    UpsertResp :=
  match getOrCreateUser existing outs with
  | .ok (id, u) => .ok id u
  | .error _ => .serverFailure "server_error"

end RB

/-! Helper lemmas shared by the claim theorems below. -/

theorem mem_enumF_of_mem {l : List α} {a : α} (h : a ∈ l) :
    ∀ k, ∃ r, (r, a) ∈ enumF k l := by
  induction l with
  | nil => simp at h
  | cons b l ih =>
    intro k
    rcases List.mem_cons.mp h with h1 | h1
    · subst h1; exact ⟨k, List.mem_cons_self _ _⟩
    · obtain ⟨r, hr⟩ := ih h1 (k + 1)
      exact ⟨r, List.mem_cons_of_mem _ hr⟩

/-- The Option match used in the username membership predicates, as an
existence statement. -/
theorem usernameMatch_iff (o : Option String) (w : String) :
    (match o with | some u => lower u == lower w | none => false) = true ↔
      ∃ u, o = some u ∧ lower u = lower w := by
  cases o with
  | none => simp
  | some u => simp [beq_iff_eq]

namespace RA

/-- A successful rankOfDeviceId localizes the device at the corresponding
position of the full ordered listing. -/
theorem rank_some {st : List Player} {d mode : String} {r : Nat}
    (h : rankOfDeviceId st d mode = some r) :
    1 ≤ r ∧ ((fullOrder st mode).get? (r - 1)).map Player.deviceId = some d := by
  obtain ⟨h1, h2⟩ := findPos_some h
  refine ⟨h1, ?_⟩
  rw [← List.get?_map]
  exact h2

/-- Every stored player has a rank. -/
theorem rank_exists {st : List Player} (mode : String) {p : Player}
    (h : p ∈ st) : ∃ r, rankOfDeviceId st p.deviceId mode = some r := by
  have hmem : p.deviceId ∈ (fullOrder st mode).map Player.deviceId := by
    refine List.mem_map_of_mem Player.deviceId ?_
    exact mem_isort.mpr h
  have := findPos_isSome (k := 1) hmem
  exact Option.isSome_iff_exists.mp this

/-- Reading a false clash check pointwise. -/
theorem clashes_false {st : List Player} {d w : String}
    (h : clashes st d w = false) :
    ∀ p ∈ st, p.deviceId ≠ d → ∀ v, p.username = some v → lower v ≠ lower w := by
  intro p hp hne v hv hlow
  have : ¬ (clashes st d w = true) := by simp [h]
  apply this
  unfold clashes
  rw [List.any_eq_true]
  refine ⟨p, hp, ?_⟩
  have h1 : (!(p.deviceId == d)) = true := by
    simp [hne]
  rw [h1, Bool.true_and, hv]
  simp [hlow]

end RA

namespace P0

/-- A successful me response of part_000 localizes the player at the rank
position of the full ordered listing, and the player is the requested one. -/
theorem me_some {st : List Player} {d : String} {modeQ : Option String}
    {q : Player} {r : Nat} (h : me st d modeQ = ⟨some q, some r⟩) :
    1 ≤ r ∧ (fullOrder st (modeOf modeQ)).get? (r - 1) = some q ∧ q.id = d := by
  unfold me at h
  cases hf : (ranked st (modeOf modeQ)).find? (fun x => x.2.id == d) with
  | none => rw [hf] at h; cases h
  | some x =>
    rw [hf] at h
    obtain ⟨r0, q0⟩ := x
    cases h
    obtain ⟨h1, h2⟩ := findq_enumF_get? (fullOrder st (modeOf modeQ)) 1 r0 q0 hf
    obtain ⟨hmem, hpred⟩ := findq_some hf
    refine ⟨h1, h2, ?_⟩
    simpa [beq_iff_eq] using hpred

/-- Every stored player of part_000 receives a me response with a rank. -/
theorem me_exists {st : List Player} (modeQ : Option String) {p : Player}
    (h : p ∈ st) : ∃ q r, me st p.id modeQ = ⟨some q, some r⟩ := by
  have hmem : p ∈ fullOrder st (modeOf modeQ) := mem_isort.mpr h
  obtain ⟨r, hr⟩ := mem_enumF_of_mem hmem 1
  have hsome : ((ranked st (modeOf modeQ)).find? (fun x => x.2.id == p.id)).isSome = true := by
    apply findq_isSome
    exact ⟨(r, p), hr, by simp⟩
  obtain ⟨x, hx⟩ := Option.isSome_iff_exists.mp hsome
  refine ⟨x.2, x.1, ?_⟩
  unfold me
  rw [hx]

end P0

/-! Concrete fixtures used by counterexamples and code divergence
evaluations. -/

/-- Two part_001 players tying on rating and updated_at. -/
def c1Store : List P1.Player :=
  [⟨"alice", "U1", 100, 0, 0, 5⟩, ⟨"bob", "U2", 100, 0, 0, 5⟩]

/-- Two part_001 players with equal rating and updated_at but different
achievement counts, hence distinct order tuples. -/
def c3Store : List P1.Player :=
  [⟨"x", "U1", 100, 0, 2, 7⟩, ⟨"y", "U2", 100, 0, 5, 7⟩]

/-- A part_000 store holding the username Alice. -/
def c6Store : List P0.Player :=
  [⟨"d1", "Alice", 1000, 1000, 0, 0, 0⟩]

/-- Insert outcomes where every attempt hits a 23505 uniqueness conflict. -/
def allConflicts : Nat → RB.InsOutcome := fun _ => .uniqueViolation

/-- Insert outcomes where the second attempt fails with a non-uniqueness
database error. -/
def conflictThenDown : Nat → RB.InsOutcome :=
  fun i => if i = 0 then .uniqueViolation else .dbFailure "db_down"

/-- Insert outcomes where only a sixth attempt would succeed. -/
def lateSuccess : Nat → RB.InsOutcome :=
  fun i => if i < 5 then .uniqueViolation else .ok 1 "late"

/-- Rows produced by the C2 scenario submissions. -/
def c2RaA : RA.Player := ⟨"playerA", none, 100, 0, 2, 1, 1⟩

def c2RaB : RA.Player := ⟨"playerB", none, 100, 0, 5, 2, 2⟩

def c2P1A : P1.Player := ⟨"playerA", "Player", 100, 1000, 2, 1⟩

def c2P1B : P1.Player := ⟨"playerB", "Player", 100, 1000, 5, 2⟩

/-- Rows produced by the C4 scenario upserts. -/
def c4RaRow1 : RA.Player := ⟨"dev1", some "Neo", 100, 7, 3, 1, 1⟩

def c4RaRow2 : RA.Player := ⟨"dev1", some "Neo", 0, 0, 0, 1, 2⟩

def c4P0Row1 : P0.Player := ⟨"dev1", "Ann", 100, 7, 3, 1, 1⟩

def c4P0Row2 : P0.Player := ⟨"dev1", "Player", 1000, 1000, 0, 1, 2⟩

/-- Store reached by the two C5 upserts of part_001. -/
def c5Store : List P1.Player :=
  [⟨"d1", "Alice", 1000, 1000, 0, 1⟩, ⟨"d2", "Alice", 1000, 1000, 0, 2⟩]

/-- C2: the claim demands that every ranked view order players by rating for
the mode descending, then achievements descending, then createdAt ascending,
and that the scenario of two classic submissions tying on rating 100 with
achievements 2 and then 5 yields the top listing playerB before playerA.
The part_001 top endpoint orders by rating and updated_at only: on exactly
this scenario it returns playerA before playerB, diverging from the claim,
while the server.js endpoint with the three-level key returns playerB before
playerA. -/
theorem C2_code_divergence :
    RA.upsert [] "playerA" ⟨none, some 100, none, some 2⟩ 1 = .ok ([c2RaA], c2RaA) ∧
    RA.upsert [c2RaA] "playerB" ⟨none, some 100, none, some 5⟩ 2 =
      .ok ([c2RaA, c2RaB], c2RaB) ∧
    (RA.top [c2RaA, c2RaB] (some "classic") 2).map RA.ApiPlayer.id =
      ["playerB", "playerA"] ∧
    P1.upsert [] "playerA" ⟨none, some 100, none, some 2⟩ 1 = ([c2P1A], c2P1A) ∧
    P1.upsert [c2P1A] "playerB" ⟨none, some 100, none, some 5⟩ 2 =
      ([c2P1A, c2P1B], c2P1B) ∧
    (P1.top [c2P1A, c2P1B] (some "classic") 2).map P1.Player.id =
      ["playerA", "playerB"] ∧
    (["playerA", "playerB"] : List String) ≠ ["playerB", "playerA"] := by
  refine ⟨rfl, rfl, rfl, rfl, rfl, rfl, by decide⟩

/-- C4: the claim states that fields omitted from an upsert of an existing
player keep their stored values. In server.js the VALUES clause coerces an
omitted numeric field to 0 before insertion, so EXCLUDED is never null and
the COALESCE update overwrites the stored ratings and achievements with 0;
in part_000 the VALUES coalesces make the update overwrite an omitted
username with Player and omitted ratings with 1000. Only the omitted
username is preserved in server.js. -/
theorem C4_code_divergence :
    RA.upsert [] "dev1" ⟨some "Neo", some 100, some 7, some 3⟩ 1 =
      .ok ([c4RaRow1], c4RaRow1) ∧
    RA.upsert [c4RaRow1] "dev1" ⟨none, none, none, none⟩ 2 =
      .ok ([c4RaRow2], c4RaRow2) ∧
    c4RaRow1.ratingClassic = 100 ∧ c4RaRow2.ratingClassic = 0 ∧
    c4RaRow2.username = some "Neo" ∧
    P0.upsert [] "dev1" ⟨some "Ann", some 100, some 7, some 3⟩ 1 =
      .ok ([c4P0Row1], c4P0Row1) ∧
    P0.upsert [c4P0Row1] "dev1" ⟨none, none, none, none⟩ 2 =
      .ok ([c4P0Row2], c4P0Row2) ∧
    c4P0Row1.username = "Ann" ∧ c4P0Row2.username = "Player" ∧
    c4P0Row2.ratingClassic = 1000 ∧ ((0 : Int) ≠ 100 ∧ (1000 : Int) ≠ 100) := by
  refine ⟨rfl, rfl, rfl, rfl, rfl, rfl, rfl, rfl, rfl, rfl, by decide⟩

/-- C7: the getOrCreateUser loop behaves as claimed inside the function: five
attempts, could_not_assign_username on exhaustion, retry only on uniqueness
conflicts, success on a fifth conflict-free attempt, and any other database
error propagated unchanged. The POST /v1/user/upsert handler, however, maps
the could_not_assign_username error to the same generic server_error response
as any other failure, so no distinct error is surfaced to the caller. -/
theorem C7_code_divergence :
    RB.getOrCreateUser none allConflicts = .error .couldNotAssignUsername ∧
    RB.getOrCreateUser none lateSuccess = .error .couldNotAssignUsername ∧
    RB.getOrCreateUser none conflictThenDown = .error (.storeFailure "db_down") ∧
    RB.getOrCreateUser none
      (fun i => if i = 4 then .ok 1 "fifth" else .uniqueViolation) = .ok (1, "fifth") ∧
    RB.userUpsertRoute none allConflicts = .serverFailure "server_error" ∧
    RB.userUpsertRoute none conflictThenDown = .serverFailure "server_error" := by
  refine ⟨rfl, rfl, rfl, rfl, rfl, rfl⟩

/-- C1 counterexample: in part_001, with two stored players tying on rating
and updated_at, the me endpoint reports rank 1 for the player bob whose
position in the full ordered listing is 2, so the listing entry at index
rank minus one names the other player alice. -/
theorem C1_counterexample :
    P1.me c1Store "bob" (some "classic") = ⟨some ⟨"bob", "U2", 100, 0, 0, 5⟩, some 1⟩ ∧
    (P1.top c1Store (some "classic") 10).get? (1 - 1) =
      some ⟨"alice", "U1", 100, 0, 0, 5⟩ ∧
    (P1.top c1Store (some "classic") 10).get? 1 = some ⟨"bob", "U2", 100, 0, 0, 5⟩ ∧
    ("alice" : String) ≠ "bob" := by decide

/-- C3 counterexample: the two part_001 players differ in their order tuples
through the achievements component, yet the RANK based me endpoint assigns
both of them rank 1 because its window order ignores achievements and the
schema has no created_at. -/
theorem C3_counterexample :
    (⟨"x", "U1", 100, 0, 2, 7⟩ : P1.Player) ≠ ⟨"y", "U2", 100, 0, 5, 7⟩ ∧
    ((2 : Int) ≠ 5) ∧
    P1.me c3Store "x" (some "classic") = ⟨some ⟨"x", "U1", 100, 0, 2, 7⟩, some 1⟩ ∧
    P1.me c3Store "y" (some "classic") = ⟨some ⟨"y", "U2", 100, 0, 5, 7⟩, some 1⟩ := by
  decide

/-- C5 counterexample: part_001 performs no username uniqueness check, so two
sequential upserts assigning Alice to two different device ids leave two
stored players holding the identical username, neither call failing. -/
theorem C5_counterexample :
    (P1.upsert [] "d1" ⟨some "Alice", none, none, none⟩ 1).1 =
      [⟨"d1", "Alice", 1000, 1000, 0, 1⟩] ∧
    (P1.upsert [⟨"d1", "Alice", 1000, 1000, 0, 1⟩] "d2"
      ⟨some "Alice", none, none, none⟩ 2).1 = c5Store ∧
    c5Store.countP (fun p => lower p.username == "alice") = 2 ∧
    ¬(2 ≤ 1) ∧ ("d1" : String) ≠ "d2" := by
  refine ⟨rfl, rfl, by decide, by decide, by decide⟩

/-- C6 counterexample: the part_000 check endpoint answers a taken name with
ok false but carries no reason field at all, so the response for a stored
case-insensitive match is not reported with reason taken as claimed. -/
theorem C6_counterexample :
    (∃ p ∈ c6Store, lower p.username = lower "Alice") ∧
    P0.checkUsername c6Store (some "Alice") = ⟨false, none⟩ ∧
    (P0.checkUsername c6Store (some "Alice")).reason ≠ some "taken" := by
  refine ⟨by decide, rfl, by decide⟩

/-- Pairwise distinct device ids: device_id is the primary key. -/
def RA.GoodIds (st : List RA.Player) : Prop :=
  st.Pairwise (fun p q => p.deviceId ≠ q.deviceId)

/-- No two rows hold case-insensitively equal non-null usernames: the
invariant enforced by the unique index on LOWER(username). -/
def RA.GoodNames (st : List RA.Player) : Prop :=
  st.Pairwise (fun p q => ∀ u v, p.username = some u → q.username = some v →
    lower u ≠ lower v)

/-- The write step preserves both store invariants whenever the username
being written, if any, clashes with no other device. -/
theorem RA.applyWrite_good (st : List RA.Player) (d : String)
    (uname : Option String) (rc ri ac : Int) (now : Nat)
    (hIds : RA.GoodIds st) (hNames : RA.GoodNames st)
    (hcl : ∀ w, uname = some w → RA.clashes st d w = false) :
    RA.GoodIds (RA.applyWrite st d uname rc ri ac now).1 ∧
      RA.GoodNames (RA.applyWrite st d uname rc ri ac now).1 := by
  unfold RA.applyWrite
  cases hf : st.find? (fun p => p.deviceId == d) with
  | some p0 =>
    have hdev : ∀ p : RA.Player,
        (if p.deviceId == d then RA.updRow uname rc ri ac now p else p).deviceId =
          p.deviceId := by
      intro p
      by_cases hc : p.deviceId == d
      · rw [if_pos hc]; rfl
      · rw [if_neg hc]
    constructor
    · unfold RA.GoodIds
      rw [List.pairwise_map]
      refine hIds.imp ?_
      intro a b hab
      rw [hdev, hdev]
      exact hab
    · unfold RA.GoodNames
      rw [List.pairwise_map]
      cases uname with
      | none =>
        have husr : ∀ p : RA.Player,
            (if p.deviceId == d then RA.updRow none rc ri ac now p else p).username =
              p.username := by
          intro p
          by_cases hc : p.deviceId == d
          · rw [if_pos hc]; rfl
          · rw [if_neg hc]
        refine hNames.imp ?_
        intro a b hab
        rw [husr, husr]
        exact hab
      | some w =>
        have husr : ∀ p : RA.Player,
            (if p.deviceId == d then RA.updRow (some w) rc ri ac now p else p).username =
              (if p.deviceId == d then some w else p.username) := by
          intro p
          by_cases hc : p.deviceId == d
          · rw [if_pos hc, if_pos hc]; rfl
          · rw [if_neg hc, if_neg hc]
        refine (hIds.and hNames).imp_of_mem ?_
        intro a b ha hb hab u v hu hv
        obtain ⟨hid, hnm⟩ := hab
        rw [husr] at hu
        rw [husr] at hv
        by_cases ca : a.deviceId == d
        · rw [if_pos ca] at hu
          by_cases cb : b.deviceId == d
          · rw [beq_iff_eq] at ca cb
            exact absurd (ca.trans cb.symm) hid
          · rw [if_neg cb] at hv
            have hbne : b.deviceId ≠ d := by simpa using cb
            have hlv := RA.clashes_false (hcl w rfl) b hb hbne v hv
            cases hu
            exact fun hh => hlv hh.symm
        · rw [if_neg ca] at hu
          by_cases cb : b.deviceId == d
          · rw [if_pos cb] at hv
            have hane : a.deviceId ≠ d := by simpa using ca
            have hlu := RA.clashes_false (hcl w rfl) a ha hane u hu
            cases hv
            exact hlu
          · rw [if_neg cb] at hv
            exact hnm u v hu hv
  | none =>
    have hfn := List.find?_eq_none.mp hf
    constructor
    · unfold RA.GoodIds
      rw [List.pairwise_append]
      refine ⟨hIds, List.pairwise_singleton _ _, ?_⟩
      intro a ha b hb
      rw [List.mem_singleton] at hb
      subst hb
      simpa using hfn a ha
    · unfold RA.GoodNames
      rw [List.pairwise_append]
      refine ⟨hNames, List.pairwise_singleton _ _, ?_⟩
      intro a ha b hb
      rw [List.mem_singleton] at hb
      subst hb
      intro u v hu hv
      cases uname with
      | none => cases hv
      | some w =>
        cases hv
        have hane : a.deviceId ≠ d := by simpa using hfn a ha
        exact RA.clashes_false (hcl v rfl) a ha hane u hu

/-- C5 amended: under sequential execution, the server.js upsert preserves
the invariant that at most one stored player holds a given username under
case-insensitive comparison (together with primary-key uniqueness): a
successful call never creates a second holder, because a conflicting name is
rejected with username_taken by the app-level check or with a generic
internal error by the unique index on LOWER(username). The part_001 upsert
performs no uniqueness check at all and the part_000 variant has no index
and assigns the default name Player to every nameless player, so those
variants admit duplicate holders even sequentially. -/
theorem C5_amended_username_uniqueness :
    ∀ (st : List RA.Player) (d : String) (b : RA.UpsertBody) (now : Nat)
      (st2 : List RA.Player) (row : RA.Player),
      RA.GoodIds st → RA.GoodNames st →
      RA.upsert st d b now = .ok (st2, row) →
      RA.GoodIds st2 ∧ RA.GoodNames st2 := by
  intro st d b now st2 row hIds hNames h
  obtain ⟨bu, brc, bri, bac⟩ := b
  cases bu with
  | none =>
    simp only [RA.upsert] at h
    have hp : (RA.applyWrite st d none (RA.numOrZero brc) (RA.numOrZero bri)
        (RA.numOrZero bac) now) = (st2, row) := by
      exact Except.ok.inj h
    have hgood := RA.applyWrite_good st d none (RA.numOrZero brc)
      (RA.numOrZero bri) (RA.numOrZero bac) now hIds hNames
      (fun w hw => nomatch hw)
    rw [hp] at hgood
    exact hgood
  | some u0 =>
    simp only [RA.upsert] at h
    split_ifs at h with h1 h2 h3
    have hcl : ∀ w, (some u0 : Option String) = some w →
        RA.clashes st d w = false := by
      intro w hw
      cases hw
      simpa using h3
    have hp : (RA.applyWrite st d (some u0) (RA.numOrZero brc)
        (RA.numOrZero bri) (RA.numOrZero bac) now) = (st2, row) := by
      exact Except.ok.inj h
    have hgood := RA.applyWrite_good st d (some u0) (RA.numOrZero brc)
      (RA.numOrZero bri) (RA.numOrZero bac) now hIds hNames hcl
    rw [hp] at hgood
    exact hgood

/-- Store reached by the C5 witness upsert. -/
def c5wStore : List RA.Player :=
  [⟨"d1", some "Ann", 1, 2, 3, 0, 0⟩, ⟨"d2", some "Bob", 0, 0, 0, 7, 7⟩]

theorem C5_amended_username_uniqueness_witness :
    RA.GoodIds c5wStore ∧ RA.GoodNames c5wStore :=
  C5_amended_username_uniqueness [⟨"d1", some "Ann", 1, 2, 3, 0, 0⟩] "d2"
    ⟨some "Bob", none, none, none⟩ 7 c5wStore ⟨"d2", some "Bob", 0, 0, 0, 7, 7⟩
    (List.pairwise_singleton _ _) (List.pairwise_singleton _ _) rfl

/-- Unfolded shape of the server.js check endpoint on a present query. -/
theorem RA.check_unfold_ra (st : List RA.Player) (name : String) :
    RA.checkUsername st (some name) =
      (if !okName (trimS name) then .badFormat
       else if st.any (fun p => match p.username with
         | some u => lower u == lower (trimS name)
         | none => false) then .taken else .ok) := rfl

/-- Unfolded shape of the part_000 check endpoint on a present query. -/
theorem P0.check_unfold_p0 (st : List P0.Player) (name : String) :
    P0.checkUsername st (some name) =
      (if !okName (trimS name) then ⟨false, some "bad_format"⟩
       else ⟨st.all (fun p => !(lower p.username == lower (trimS name))), none⟩) := rfl

/-- The any over the optional username match, as an existence statement. -/
theorem RA.any_match_iff (st : List RA.Player) (w : String) :
    (st.any (fun p => match p.username with
      | some u => lower u == lower w
      | none => false) = true) ↔
      ∃ p ∈ st, ∃ u, p.username = some u ∧ lower u = lower w := by
  rw [List.any_eq_true]
  exact exists_congr fun p => and_congr_right fun _ => usernameMatch_iff p.username w

/-- The all over the negated username match, negated, as existence. -/
theorem P0.all_nomatch_false_iff (st : List P0.Player) (w : String) :
    (st.all (fun p => !(lower p.username == lower w)) = false) ↔
      ∃ p ∈ st, lower p.username = lower w := by
  rw [List.all_eq_false]
  exact exists_congr fun p => and_congr_right fun _ => by simp [beq_iff_eq]

/-- C6 amended: the server.js check endpoint reports bad_format exactly when
the trimmed name fails the charset and length rule, independently of the
store; otherwise it reports taken exactly when some stored non-null username
case-insensitively equals the trimmed name and ok otherwise, reading but
never changing the store. The part_000 endpoint has the same bad_format and
availability semantics but reports a taken name as ok false without the
taken reason code. -/
theorem C6_amended_check_characterization :
    (∀ (st : List RA.Player) (name : String),
      (RA.checkUsername st (some name) = .badFormat ↔ okName (trimS name) = false) ∧
      (okName (trimS name) = true →
        (RA.checkUsername st (some name) = .taken ↔
          ∃ p ∈ st, ∃ u, p.username = some u ∧ lower u = lower (trimS name))) ∧
      (okName (trimS name) = true →
        (RA.checkUsername st (some name) = .ok ↔
          ¬∃ p ∈ st, ∃ u, p.username = some u ∧ lower u = lower (trimS name)))) ∧
    (∀ (st : List P0.Player) (name : String),
      ((P0.checkUsername st (some name)).reason = some "bad_format" ↔
        okName (trimS name) = false) ∧
      (okName (trimS name) = true →
        ((P0.checkUsername st (some name)).ok = false ↔
          ∃ p ∈ st, lower p.username = lower (trimS name)))) := by
  constructor
  · intro st name
    rw [RA.check_unfold_ra]
    refine ⟨?_, ?_, ?_⟩
    · cases hok : okName (trimS name) with
      | false => simp [hok]
      | true =>
        cases hany : st.any (fun p => match p.username with
          | some u => lower u == lower (trimS name)
          | none => false) with
        | false => simp [hok, hany]
        | true => simp [hok, hany]
    · intro hok
      rw [← RA.any_match_iff]
      cases hany : st.any (fun p => match p.username with
        | some u => lower u == lower (trimS name)
        | none => false) with
      | false => simp [hok, hany]
      | true => simp [hok, hany]
    · intro hok
      rw [← RA.any_match_iff]
      cases hany : st.any (fun p => match p.username with
        | some u => lower u == lower (trimS name)
        | none => false) with
      | false => simp [hok, hany]
      | true => simp [hok, hany]
  · intro st name
    rw [P0.check_unfold_p0]
    constructor
    · cases hok : okName (trimS name) with
      | false => simp [hok]
      | true => simp [hok]
    · intro hok
      rw [← P0.all_nomatch_false_iff]
      cases hall : st.all (fun p => !(lower p.username == lower (trimS name))) with
      | false => simp [hok, hall]
      | true => simp [hok, hall]

/-- Concrete store for the C6 witness. -/
def c6wStore : List RA.Player := [⟨"d9", some "Bob", 0, 0, 0, 0, 0⟩]

theorem C6_amended_check_characterization_witness :
    RA.checkUsername c6wStore (some "Bob") = .taken ∧
    RA.checkUsername [] (some "x") = .badFormat :=
  ⟨((C6_amended_check_characterization.1 c6wStore "Bob").2.1 (by decide)).mpr
      ⟨⟨"d9", some "Bob", 0, 0, 0, 0, 0⟩, by decide, "Bob", rfl, by decide⟩,
    ((C6_amended_check_characterization.1 [] "x").1).mpr (by decide)⟩

/-- C1 amended: in the index-based variants the single-player rank is always
the 1-based index in the full ordered listing: the server.js rankOfDeviceId
scan locates the player at position rank minus one of the very listing that
the leaderboard endpoint returns, and every stored player has such a rank;
likewise the part_000 me endpoint reports the ROW_NUMBER of the player in
the shared ordered listing. The part_001 RANK based me endpoint does not
satisfy this when two players tie on rating and updated_at. -/
theorem C1_amended_rank_consistency :
    (∀ (st : List RA.Player) (mode : String) (p : RA.Player), p ∈ st →
      ∃ r, RA.rankOfDeviceId st p.deviceId mode = some r ∧ 1 ≤ r ∧
        ((RA.fullOrder st mode).get? (r - 1)).map RA.Player.deviceId =
          some p.deviceId) ∧
    (∀ (st : List P0.Player) (modeQ : Option String) (d : String)
      (q : P0.Player) (r : Nat), P0.me st d modeQ = ⟨some q, some r⟩ →
      1 ≤ r ∧ (P0.fullOrder st (modeOf modeQ)).get? (r - 1) = some q ∧ q.id = d) ∧
    (∀ (st : List P0.Player) (modeQ : Option String) (p : P0.Player), p ∈ st →
      ∃ q r, P0.me st p.id modeQ = ⟨some q, some r⟩) := by
  refine ⟨?_, ?_, ?_⟩
  · intro st mode p hp
    obtain ⟨r, hr⟩ := RA.rank_exists mode hp
    obtain ⟨h1, h2⟩ := RA.rank_some hr
    exact ⟨r, hr, h1, h2⟩
  · intro st modeQ d q r h
    exact P0.me_some h
  · intro st modeQ p hp
    exact P0.me_exists modeQ hp

/-- Concrete server.js player for the C1 witness. -/
def c1wRa : RA.Player := ⟨"w1", some "Zed", 5, 6, 7, 0, 0⟩

/-- Concrete part_000 player for the C1 witness. -/
def c1wP0 : P0.Player := ⟨"w0", "Zed", 5, 6, 7, 0, 0⟩

theorem C1_amended_rank_consistency_witness :
    (∃ r, RA.rankOfDeviceId [c1wRa] c1wRa.deviceId "classic" = some r ∧ 1 ≤ r ∧
      ((RA.fullOrder [c1wRa] "classic").get? (r - 1)).map RA.Player.deviceId =
        some c1wRa.deviceId) ∧
    (∃ q r, P0.me [c1wP0] c1wP0.id (some "classic") = ⟨some q, some r⟩) :=
  ⟨C1_amended_rank_consistency.1 [c1wRa] "classic" c1wRa (by decide),
   C1_amended_rank_consistency.2.2 [c1wP0] (some "classic") c1wP0 (by decide)⟩

/-- C3 amended: under the index-based rankings, distinct requested players
always receive distinct ranks, with no hypothesis on their field tuples at
all: the part_000 ROW_NUMBER based me endpoint and the server.js scan both
assign positions of the ordered listing, which are injective. The part_001
RANK based rank is the variant that can repeat a position for distinct
players tying on rating and updated_at. -/
theorem C3_amended_distinct_ranks :
    (∀ (st : List P0.Player) (modeQ : Option String) (d1 d2 : String)
      (q1 q2 : P0.Player) (r1 r2 : Nat), d1 ≠ d2 →
      P0.me st d1 modeQ = ⟨some q1, some r1⟩ →
      P0.me st d2 modeQ = ⟨some q2, some r2⟩ → r1 ≠ r2) ∧
    (∀ (st : List RA.Player) (mode d1 d2 : String) (r1 r2 : Nat), d1 ≠ d2 →
      RA.rankOfDeviceId st d1 mode = some r1 →
      RA.rankOfDeviceId st d2 mode = some r2 → r1 ≠ r2) := by
  constructor
  · intro st modeQ d1 d2 q1 q2 r1 r2 hdd h1 h2 hrr
    obtain ⟨_, hg1, hid1⟩ := P0.me_some h1
    obtain ⟨_, hg2, hid2⟩ := P0.me_some h2
    rw [hrr] at hg1
    rw [hg1] at hg2
    have hq : q1 = q2 := Option.some.inj hg2
    apply hdd
    rw [← hid1, ← hid2, hq]
  · intro st mode d1 d2 r1 r2 hdd h1 h2 hrr
    obtain ⟨_, hg1⟩ := RA.rank_some h1
    obtain ⟨_, hg2⟩ := RA.rank_some h2
    rw [hrr] at hg1
    rw [hg1] at hg2
    exact hdd (Option.some.inj hg2)

/-- Concrete server.js store for the C3 witness. -/
def c3wStore : List RA.Player :=
  [⟨"a", none, 10, 0, 0, 0, 0⟩, ⟨"b", none, 5, 0, 0, 0, 0⟩]

theorem C3_amended_distinct_ranks_witness :
    RA.rankOfDeviceId c3wStore "a" "classic" = some 1 ∧
    RA.rankOfDeviceId c3wStore "b" "classic" = some 2 ∧ (1 : Nat) ≠ 2 :=
  ⟨rfl, rfl, C3_amended_distinct_ranks.2 c3wStore "classic" "a" "b" 1 2
    (by decide) rfl rfl⟩

/-- C9: when the requested playerId matches no stored player, the me
endpoints of server.js and part_000 both answer with null me and null rank
rather than an error. -/
theorem C9_me_unknown_is_null :
    (∀ (st : List RA.Player) (d : String) (modeQ : Option String),
      (∀ p ∈ st, p.deviceId ≠ d) → RA.me st d modeQ = ⟨none, none⟩) ∧
    (∀ (st : List P0.Player) (d : String) (modeQ : Option String),
      (∀ p ∈ st, p.id ≠ d) → P0.me st d modeQ = ⟨none, none⟩) := by
  constructor
  · intro st d modeQ h
    unfold RA.me
    have hf : st.find? (fun p => p.deviceId == d) = none := by
      rw [List.find?_eq_none]
      intro p hp
      simp [h p hp]
    rw [hf]
  · intro st d modeQ h
    unfold P0.me
    have hf : (P0.ranked st (modeOf modeQ)).find? (fun x => x.2.id == d) = none := by
      rw [List.find?_eq_none]
      intro x hx
      have hx2 : x.2 ∈ P0.fullOrder st (modeOf modeQ) :=
        (mem_enumF (l := P0.fullOrder st (modeOf modeQ)) hx).2
      have hx3 : x.2 ∈ st := mem_isort.mp hx2
      simp [h x.2 hx3]
    rw [hf]

theorem C9_me_unknown_is_null_witness :
    RA.me [c1wRa] "nobody" (some "classic") = ⟨none, none⟩ ∧
    P0.me [c1wP0] "nobody" (some "classic") = ⟨none, none⟩ :=
  ⟨C9_me_unknown_is_null.1 [c1wRa] "nobody" (some "classic") (by decide),
   C9_me_unknown_is_null.2 [c1wP0] "nobody" (some "classic") (by decide)⟩

/-- C10: for any mode query other than the exact string infinity, including
an absent one, the /api read endpoints of server.js, part_000 and part_001
behave exactly as with mode classic, and none of them has a bad-mode
rejection branch. -/
theorem C10_mode_defaulting :
    ∀ (stA : List RA.Player) (st0 : List P0.Player) (st1 : List P1.Player)
      (q : Option String) (d : String) (limit : Nat), q ≠ some "infinity" →
      RA.leaderboard stA q = RA.leaderboard stA (some "classic") ∧
      RA.top stA q limit = RA.top stA (some "classic") limit ∧
      RA.me stA d q = RA.me stA d (some "classic") ∧
      P0.leaderboard st0 q = P0.leaderboard st0 (some "classic") ∧
      P0.me st0 d q = P0.me st0 d (some "classic") ∧
      P1.top st1 q limit = P1.top st1 (some "classic") limit ∧
      P1.me st1 d q = P1.me st1 d (some "classic") := by
  intro stA st0 st1 q d limit hq
  have hm : modeOf q = modeOf (some "classic") := by
    unfold modeOf
    rw [if_neg hq, if_neg (by decide)]
  refine ⟨?_, ?_, ?_, ?_, ?_, ?_, ?_⟩
  · unfold RA.leaderboard; rw [hm]
  · unfold RA.top; rw [hm]
  · unfold RA.me; rw [hm]
  · unfold P0.leaderboard; rw [hm]
  · unfold P0.me; rw [hm]
  · unfold P1.top; rw [hm]
  · unfold P1.me; rw [hm]

/-- C8: the around endpoint fails with user_not_found exactly when the
device has no stored user; for a stored user that is ranked for the mode it
returns precisely the contiguous slice of the ranked full listing whose
ranks span the window around the rank of the user, clipped at rank 1 by the
natural subtraction and at the high end by the take, and every user holding
a rating row for the mode has such a rank. -/
theorem C8_around_window :
    ∀ (st : RB.State) (m d : String) (radius : Nat),
      (m = "classic" ∨ m = "infinity") → radius ≤ 25 →
      ((st.users.find? (fun u => u.deviceId == d) = none →
        RB.around st (some m) d radius = .error .userNotFound) ∧
       (∀ u, st.users.find? (fun u2 => u2.deviceId == d) = some u →
         ((∃ r ∈ st.ratings, r.userId = u.id ∧ r.mode = m) →
           ∃ mr, RB.rankOfUser st m u.id = some mr) ∧
         (∀ mr, RB.rankOfUser st m u.id = some mr →
           RB.around st (some m) d radius =
             .ok (((RB.rankedRows st m).drop ((mr - radius) - 1)).take
               (mr + radius + 1 - max (mr - radius) 1))))) := by
  intro st m d radius hm hrad
  have hmode : (!(m == "classic" || m == "infinity")) = false := by
    rcases hm with rfl | rfl <;> rfl
  have hmin : min radius 25 = radius := Nat.min_eq_left hrad
  have hred : RB.around st (some m) d radius =
      (match st.users.find? (fun u => u.deviceId == d) with
       | none => .error .userNotFound
       | some u =>
         match RB.rankOfUser st m u.id with
         | none => .ok []
         | some mr => .ok ((RB.rankedRows st m).filter (fun x =>
             decide ((mr : Int) - (radius : Int) ≤ (x.1 : Int)) &&
               decide ((x.1 : Int) ≤ (mr : Int) + (radius : Int))))) := by
    unfold RB.around
    rw [hmin]
    simp only [Option.getD, hmode, Bool.false_eq_true, if_false]
  constructor
  · intro hfind
    rw [hred, hfind]
  · intro u hfind
    constructor
    · rintro ⟨r, hr, hru, hrm⟩
      have hfu : (st.users.find? (fun u2 => u2.id == r.userId)).isSome = true := by
        apply findq_isSome
        exact ⟨u, (findq_some hfind).1, by simp [hru]⟩
      obtain ⟨u0, hu0⟩ := Option.isSome_iff_exists.mp hfu
      have hu0id : u0.id = r.userId := by
        simpa [beq_iff_eq] using (findq_some hu0).2
      have hjoin : (u0, r) ∈ RB.joinRows st m := by
        unfold RB.joinRows
        apply List.mem_filterMap.mpr
        refine ⟨r, hr, ?_⟩
        simp [hrm, hu0]
      have hfull : (u0, r) ∈ RB.fullOrder st m := mem_isort.mpr hjoin
      obtain ⟨k, hk⟩ := mem_enumF_of_mem hfull 1
      have hrk : ((RB.rankedRows st m).find? (fun x => x.2.1.id == u.id)).isSome = true := by
        apply findq_isSome
        refine ⟨(k, (u0, r)), hk, ?_⟩
        simp [hu0id, hru]
      obtain ⟨x, hxx⟩ := Option.isSome_iff_exists.mp hrk
      refine ⟨x.1, ?_⟩
      unfold RB.rankOfUser
      rw [hxx]
      rfl
    · intro mr hmr
      rw [hred]
      simp only [hfind, hmr]
      have hcong : (RB.rankedRows st m).filter (fun x =>
          decide ((mr : Int) - (radius : Int) ≤ (x.1 : Int)) &&
            decide ((x.1 : Int) ≤ (mr : Int) + (radius : Int))) =
          (RB.rankedRows st m).filter (fun x =>
            decide ((mr - radius : Nat) ≤ x.1) && decide (x.1 ≤ mr + radius)) := by
        apply List.filter_congr
        intro x hx
        have h1 : 1 ≤ x.1 :=
          (mem_enumF (show x ∈ enumF 1 (RB.fullOrder st m) from hx)).1
        have e1 : decide ((mr : Int) - (radius : Int) ≤ (x.1 : Int)) =
            decide ((mr - radius : Nat) ≤ x.1) :=
          decide_eq_decide.mpr (by omega)
        have e2 : decide ((x.1 : Int) ≤ (mr : Int) + (radius : Int)) =
            decide (x.1 ≤ mr + radius) :=
          decide_eq_decide.mpr (by omega)
        rw [e1, e2]
      rw [hcong]
      have hw := filter_enumF_window (RB.fullOrder st m) 1 (mr - radius) (mr + radius)
      exact congrArg Except.ok hw

/-- Concrete state for the C8 witness: two ranked classic players, the
queried one at rank 1 with radius 2, so the window is clipped at rank 1. -/
def c8wState : RB.State :=
  ⟨[⟨1, "devA", "Ana", 0⟩, ⟨2, "devB", "Ben", 1⟩],
   [⟨1, "classic", 50, 0⟩, ⟨2, "classic", 40, 0⟩]⟩

theorem C8_around_window_witness :
    RB.around c8wState (some "classic") "devA" 2 =
      .ok (((RB.rankedRows c8wState "classic").drop ((1 - 2) - 1)).take
        (1 + 2 + 1 - max (1 - 2) 1)) :=
  ((C8_around_window c8wState "classic" "devA" 2 (Or.inl rfl) (by decide)).2
    ⟨1, "devA", "Ana", 0⟩ rfl).2 1 rfl

theorem C10_mode_defaulting_witness :
    RA.leaderboard [c1wRa] none = RA.leaderboard [c1wRa] (some "classic") ∧
    RA.top [c1wRa] none 10 = RA.top [c1wRa] (some "classic") 10 ∧
    RA.me [c1wRa] "w1" none = RA.me [c1wRa] "w1" (some "classic") ∧
    P0.leaderboard [c1wP0] none = P0.leaderboard [c1wP0] (some "classic") ∧
    P0.me [c1wP0] "w1" none = P0.me [c1wP0] "w1" (some "classic") ∧
    P1.top c1Store none 10 = P1.top c1Store (some "classic") 10 ∧
    P1.me c1Store "w1" none = P1.me c1Store "w1" (some "classic") :=
  C10_mode_defaulting [c1wRa] [c1wP0] c1Store none "w1" 10 (by decide)

end Verto
